import Mathlib

/-
Verification of the bookdealer.it recommendations scraper
(src/bookdealer_scraper.py) against its natural-language specification.

The Python module is shallowly embedded: HTML documents are modelled by the
node structure the scraper actually queries, the regular expressions it uses
are implemented character by character with Python `re.search` semantics, and
each Python function becomes a Lean function returning `Except PyErr _`,
where `PyErr` records which Python exception class an unhandled statement
would raise.
-/

deriving instance DecidableEq for Except

namespace Bookdealer

/-- Character list; the embedding works on `List Char` rather than `String`
so that proofs can proceed by structural induction. -/
abbrev Str := List Char

/-- The Python exception classes the scraper can raise. -/
inductive PyErr where
  | attributeError
  | typeError
  | indexError
  | valueError
deriving DecidableEq

/-- An `<a>` node as the scraper uses it: only its `href` attribute is read.
Anchors produced by the `href*=` selectors always carry an `href`. -/
structure Anchor where
  href : Str
deriving DecidableEq

/-- The `div.product-details-info` container, as queried by
`parse_book_data`: the `h3.product-title` node (outer `Option`: node present;
inner `Option`: its `.string`, which BeautifulSoup reports as `None` when the
tag has no single string child), the `span.price-new` node likewise, and the
`.text` of the `ul.list-unstyled` block. -/
structure DetailsInfo where
  productTitle : Option (Option Str)
  priceNew : Option (Option Str)
  listUnstyled : Option Str
deriving DecidableEq

/-- One fetched book-detail document, restricted to the nodes
`parse_book_data` queries: the details container, the
`div.w-consigliato-da` endorsement block (payload: its anchor nodes in
document order), and the `.text` of the `article.review-article` node. -/
structure BookDoc where
  productDetailsInfo : Option DetailsInfo
  consigliatoDa : Option (List Anchor)
  reviewArticle : Option Str
deriving DecidableEq

/-- A stored price value: either the integer whole-unit part extracted by
the currency regex, or the raw source text kept verbatim. -/
inductive PriceVal where
  | asInt (n : Nat)
  | raw (s : Str)
deriving DecidableEq

/-- The `book_data` dictionary built by `parse_book_data`, with its fixed
key set in insertion order. -/
structure BookRecord where
  title : Option Str
  price : Option PriceVal
  author : Option Str
  publisher : Option Str
  isbn : Option Str
  category : Option Str
  translator : Option Str
  pages : Option Str
  date : Option Str
  series : Option Str
  recommendations : Option Nat
  bookstores : Option Str
  synopsis : Option Str
deriving DecidableEq

/-! ### Regular-expression primitives

`parse_book_data` uses two regex shapes, both via `re.search`:
`(\d+),\d\d €` for the price and `{label}: (.+)\n` for each labelled
attribute.  `re.search` tries the pattern at every start position from the
left; both patterns are implemented below with exactly that semantics
(for these two patterns greedy matching needs no backtracking: after the
maximal digit run, resp. the maximal non-newline run, the required next
character can never match a character the quantifier gave back). -/

/-- ASCII decimal digit test, the `\d` class on the scraper's input. -/
def isDig (c : Char) : Bool := decide ('0' ≤ c) && decide (c ≤ '9')

/-- Value of a decimal digit character. -/
def digitVal (c : Char) : Nat := c.toNat - 48

/-- Value of a string of decimal digits, as `int` computes it. -/
def decVal (ds : Str) : Nat := ds.foldl (fun a c => 10 * a + digitVal c) 0

/-- Does `t` begin with `,` digit digit `space` `€` — the part of the price
pattern that follows the captured digit group? -/
def priceTail (t : Str) : Bool :=
  match t with
  | a :: d1 :: d2 :: b :: e :: _ =>
      decide (a = ',') && isDig d1 && isDig d2 && decide (b = ' ') && decide (e = '€')
  | _ => false

/-- Try the pattern at the start of `t`: a nonempty (greedy) digit run
captured as group 1, then `priceTail`.  Returns the `int` of the group. -/
def matchPriceAt (t : Str) : Option Nat :=
  let ds := t.takeWhile isDig
  if ds = [] then none
  else if priceTail (t.drop ds.length) then some (decVal ds) else none

/-- `re.search` for the price pattern: try every start position, leftmost
match wins. -/
def searchPrice : Str → Option Nat
  | [] => none
  | c :: cs =>
      match matchPriceAt (c :: cs) with
      | some n => some n
      | none => searchPrice cs

/-- True for every character except a newline (the `.` class). -/
def notNl (c : Char) : Bool := if c = '\n' then false else true

/-- The `(.+)\n` part of the label pattern, matched at the start of `t`:
a nonempty (greedy) run of non-newline characters, then a newline; the run
is the captured group. -/
def capture (t : Str) : Option Str :=
  let ds := t.takeWhile notNl
  if ds = [] then none
  else
    match t.drop ds.length with
    | '\n' :: _ => some ds
    | _ => none

/-- The literal part of the label pattern: the label followed by a colon
and a space. -/
def labelColon (lab : Str) : Str := lab ++ [':', ' ']

/-- Try the pattern `{lab}: (.+)\n` at the start of `t`. -/
def matchLabelAt (lab t : Str) : Option Str :=
  if (labelColon lab).isPrefixOf t then capture (t.drop (labelColon lab).length)
  else none

/-- `re.search` for the label pattern: try every start position, leftmost
match wins; returns the captured group. -/
def searchLabel (lab : Str) : Str → Option Str
  | [] => none
  | c :: cs =>
      match matchLabelAt lab (c :: cs) with
      | some v => some v
      | none => searchLabel lab cs

/-! ### parse_book_data -/

/-- Executable substring test: does `pat` occur contiguously in `s`?
This is the `href*=` substring selector of the scraper's CSS queries. -/
def containsSub (pat : Str) : Str → Bool
  | [] => pat.isPrefixOf []
  | c :: cs => pat.isPrefixOf (c :: cs) || containsSub pat cs

/-- The label constants of `additional_info_mapping`. -/
def labAutore : Str := ("Autore").toList

def labEditore : Str := ("Editore").toList

def labIsbn : Str := ("Isbn").toList

def labCategoria : Str := ("Categoria").toList

def labTraduttore : Str := ("Traduttore").toList

def labNumeroPagine : Str := ("Numero pagine").toList

def labDataUscita : Str := ("Data di Uscita").toList

def labCollana : Str := ("Collana").toList

/-- The substring the endorsement selector `a[href*=\/libreria\/]` filters
on, also the prefix length stripped from each matched `href`. -/
def libreriaPat : Str := ("/libreria/").toList

/-- Separator used by `', '.join`. -/
def commaSep : Str := (", ").toList

/-- `', '.join` on a list of strings. -/
def joinComma (xs : List Str) : Str := List.intercalate commaSep xs

/-- The `try: ... select('a[href*=\/libreria\/]') except: bookstores = None`
step: `None` when the endorsement block is absent (the `AttributeError` is
swallowed by the bare `except`), otherwise the anchors whose `href` contains
`/libreria/`, in document order. -/
def bookstoresSel (doc : BookDoc) : Option (List Anchor) :=
  match doc.consigliatoDa with
  | none => none
  | some anchors => some (anchors.filter (fun a => containsSub libreriaPat a.href))

/-- The `if bookstores:` step: Python truthiness makes `None` and `[]`
coincide.  Returns the `recommendations` and `bookstores` fields. -/
def recommendationFields (doc : BookDoc) : Option Nat × Option Str :=
  match bookstoresSel doc with
  | some (a :: rest) =>
      (some (a :: rest).length,
       some (joinComma ((a :: rest).map (fun b => b.href.drop libreriaPat.length))))
  | _ => (none, none)

/-- The price step: on a missing `.string` the `re.search` call raises
`TypeError`, swallowed by the bare `except`, and the `None` tag is stored;
on a pattern match the captured group as `int`; otherwise the raw text. -/
def priceField (priceTag : Option Str) : Option PriceVal :=
  match priceTag with
  | none => none
  | some pt =>
      match searchPrice pt with
      | some n => some (.asInt n)
      | none => some (.raw pt)

/-- `parse_book_data`: the attribute accesses on absent nodes
(`book_info.find(...)` returning `None`, then `.string` / `.text`) raise
`AttributeError`, which nothing in this function or its caller catches for
the container, title and price nodes and the `ul` block; every other field
degrades as in the source. -/
def parse_book_data (doc : BookDoc) : Except PyErr BookRecord :=
  match doc.productDetailsInfo with
  | none => .error .attributeError
  | some info =>
      match info.productTitle with
      | none => .error .attributeError
      | some titleStr =>
          match info.priceNew with
          | none => .error .attributeError
          | some priceTag =>
              match info.listUnstyled with
              | none => .error .attributeError
              | some addInfo =>
                  .ok
                    { title := titleStr
                      price := priceField priceTag
                      author := searchLabel labAutore addInfo
                      publisher := searchLabel labEditore addInfo
                      isbn := searchLabel labIsbn addInfo
                      category := searchLabel labCategoria addInfo
                      translator := searchLabel labTraduttore addInfo
                      pages := searchLabel labNumeroPagine addInfo
                      date := searchLabel labDataUscita addInfo
                      series := searchLabel labCollana addInfo
                      recommendations := (recommendationFields doc).1
                      bookstores := (recommendationFields doc).2
                      synopsis := doc.reviewArticle }

/-! ### write_csv -/

/-- The fixed column set, in the dictionary insertion order of
`parse_book_data` (what `data[0].keys()` yields). -/
def columns : List Str :=
  [("title").toList, ("price").toList, ("author").toList, ("publisher").toList,
   ("isbn").toList, ("category").toList, ("translator").toList, ("pages").toList,
   ("date").toList, ("series").toList, ("recommendations").toList,
   ("bookstores").toList, ("synopsis").toList]

/-- One line of the CSV file: the header row of column names, or a data row
serialising one record. -/
inductive CsvLine where
  | header (cols : List Str)
  | row (r : BookRecord)
deriving DecidableEq

/-- The destination file: `none` when the file does not exist, otherwise
its lines. -/
abbrev FileState := Option (List CsvLine)

/-- `write_csv`: header only when `path.exists` was false, then the batch
appended; `data[0]` raises `IndexError` on an empty batch. -/
def write_csv (data : List BookRecord) (fs : FileState) : Except PyErr FileState :=
  let writeColumnNames := fs.isNone
  match data with
  | [] => .error .indexError
  | _ :: _ =>
      let existing := fs.getD []
      .ok (some (existing ++
        (if writeColumnNames then [CsvLine.header columns] else []) ++
        data.map CsvLine.row))

/-! ### main -/

/-- The module-level `DOMAIN` constant. -/
def DOMAIN : Str := ("https://www.bookdealer.it/").toList

/-- The substring the book selector `a[href*=\/libro\/]` filters on. -/
def libroPat : Str := ("/libro/").toList

/-- A `div.product-header` node: its anchor nodes in document order. -/
structure HeaderDiv where
  anchors : List Anchor
deriving DecidableEq

/-- One fetched catalog-listing document: its `div.product-header` nodes. -/
structure ListingPage where
  headers : List HeaderDiv
deriving DecidableEq

/-- The site as the crawl observes it through the page fetcher: the
`a.next-btn` anchors of the catalog root, each numbered listing page, and
the book-detail document behind each resolved book URL. -/
structure Site where
  rootNextBtns : List Anchor
  pages : Nat → ListingPage
  bookAt : Str → BookDoc

/-- Modelled from the spec: URL resolution against the site's base address
(the external `urljoin` collaborator).  The crawl uses the resolved URL
only as a fetch key; site-relative paths are attached to the base with its
trailing slash dropped. -/
def urljoin (base p : Str) : Str :=
  if p.head? = some '/' then base.dropLast ++ p else base ++ p

/-- `select_one('a[href*=\/libro\/]')`: the first anchor of the header
whose `href` contains `/libro/`. -/
def selectLibro (h : HeaderDiv) : Option Anchor :=
  h.anchors.find? (fun a => containsSub libroPat a.href)

/-- The inner loop of `main` over the `product-header` nodes of one page:
a header with no matching anchor makes `None['href']` raise `TypeError`,
and a `parse_book_data` failure propagates — neither is caught. -/
def parseBooks (site : Site) : List HeaderDiv → Except PyErr (List BookRecord)
  | [] => .ok []
  | h :: hs =>
      match selectLibro h with
      | none => .error .typeError
      | some a =>
          match parse_book_data (site.bookAt (urljoin DOMAIN a.href)) with
          | .error e => .error e
          | .ok b =>
              match parseBooks site hs with
              | .error e => .error e
              | .ok bs => .ok (b :: bs)

/-! ### Python int() on strings -/

/-- Python whitespace stripped by `int()` (ASCII portion). -/
def pyWs (c : Char) : Bool :=
  decide (c = ' ') || decide (c = '\t') || decide (c = '\n') || decide (c = '\x0b') ||
    decide (c = '\x0c') || decide (c = '\r')

/-- `str.strip()` of whitespace on both ends. -/
def pyStrip (s : Str) : Str := ((s.dropWhile pyWs).reverse.dropWhile pyWs).reverse

/-- Digit run with Python's single-underscore grouping: underscores are
permitted only between two digits. -/
def pyDigitsVal : Nat → Str → Option Nat
  | acc, [] => some acc
  | _, ['_'] => none
  | acc, '_' :: c :: rest =>
      if isDig c then pyDigitsVal (10 * acc + digitVal c) rest else none
  | acc, c :: rest =>
      if isDig c then pyDigitsVal (10 * acc + digitVal c) rest else none

/-- An unsigned integer literal body: a leading digit then `pyDigitsVal`. -/
def pyIntCore : Str → Option Nat
  | [] => none
  | c :: rest => if isDig c then pyDigitsVal (digitVal c) rest else none

/-- Python `int(s)`: strip whitespace, optional sign, digits; `none` models
the `ValueError` raise. -/
def pyInt (s : Str) : Option Int :=
  match pyStrip s with
  | '-' :: rest => (pyIntCore rest).map (fun n => -(n : Int))
  | '+' :: rest => (pyIntCore rest).map (fun n => (n : Int))
  | t => (pyIntCore t).map (fun n => (n : Int))

/-- `int(last_page_button['href'][5:])` on the second `a.next-btn` of the
catalog root: `[1]` raises `IndexError` when fewer than two controls exist,
`int` raises `ValueError` when the slice past the first five characters is
not a numeral. -/
def resolveLastPage (site : Site) : Except PyErr Int :=
  match site.rootNextBtns.get? 1 with
  | none => .error .indexError
  | some btn =>
      match pyInt (btn.href.drop 5) with
      | none => .error .valueError
      | some n => .ok n

/-- `range(1, last_page + 1)`. -/
def pyRange1 (n : Int) : List Nat := (List.range n.toNat).map (fun k => k + 1)

/-- The page numbers `main` iterates, in order. -/
def pagesOf (site : Site) : Except PyErr (List Nat) :=
  match resolveLastPage site with
  | .error e => .error e
  | .ok n => .ok (pyRange1 n)

/-- The per-page loop of `main`: parse every book of the page, then
`write_csv` the batch; any uncaught exception aborts the remaining pages. -/
def runPages (site : Site) (fs : FileState) : List Nat → Except PyErr FileState
  | [] => .ok fs
  | p :: ps =>
      match parseBooks site (site.pages p).headers with
      | .error e => .error e
      | .ok batch =>
          match write_csv batch fs with
          | .error e => .error e
          | .ok fs2 => runPages site fs2 ps

/-- `main(filename)`: resolve the page bound from the catalog root, then
run the per-page loop against the destination file state. -/
def mainRun (site : Site) (fs : FileState) : Except PyErr FileState :=
  match pagesOf site with
  | .error e => .error e
  | .ok ps => runPages site fs ps

/-! ### Shared concrete objects for witnesses and counterexamples -/

/-- A record with every optional field absent. -/
def sampleRecordA : BookRecord :=
  { title := none, price := none, author := none, publisher := none, isbn := none,
    category := none, translator := none, pages := none, date := none, series := none,
    recommendations := none, bookstores := none, synopsis := none }

/-- A second, distinct record. -/
def sampleRecordB : BookRecord := { sampleRecordA with title := some (("B").toList) }

/-- A book-detail document on which `parse_book_data` succeeds. -/
def goodDoc : BookDoc :=
  { productDetailsInfo := some
      { productTitle := some none, priceNew := some none, listUnstyled := some [] }
    consigliatoDa := none
    reviewArticle := none }

/-! ### Claims about the Incremental Writer (C4, C7) -/

/-- Two `write_csv` calls in sequence against an initially nonexistent
destination. -/
def writeTwice (b1 b2 : List BookRecord) : Except PyErr FileState :=
  match write_csv b1 none with
  | .error e => .error e
  | .ok fs1 => write_csv b2 fs1

/-- C4: calling the Writer twice against the same initially-nonexistent
destination with two non-empty batches produces exactly one header row,
placed first, followed by all rows of the first batch and then all rows of
the second batch, in call order. -/
theorem claim_c4 (b1 b2 : List BookRecord) (r1 : BookRecord) (t1 : List BookRecord)
    (r2 : BookRecord) (t2 : List BookRecord) (h1 : b1 = r1 :: t1) (h2 : b2 = r2 :: t2) :
    writeTwice b1 b2 =
      .ok (some (CsvLine.header columns :: (b1.map CsvLine.row ++ b2.map CsvLine.row))) := by
  subst h1; subst h2
  simp [writeTwice, write_csv]

/-- C4 witness: the two-call property at two concrete non-empty batches. -/
theorem claim_c4_witness :
    [sampleRecordA] = sampleRecordA :: [] ∧
    [sampleRecordB, sampleRecordA] = sampleRecordB :: [sampleRecordA] ∧
    writeTwice [sampleRecordA] [sampleRecordB, sampleRecordA] =
      .ok (some (CsvLine.header columns ::
        ([sampleRecordA].map CsvLine.row ++ [sampleRecordB, sampleRecordA].map CsvLine.row))) :=
  ⟨rfl, rfl, claim_c4 _ _ sampleRecordA [] sampleRecordB [sampleRecordA] rfl rfl⟩

/-- C7 counterexample: a destination that exists with empty content gets
no header row — `path.exists` is true, so column names are skipped and the
first line of the result is a data row, refuting the claim's
"or exists with empty content" case. -/
theorem claim_c7_cex :
    write_csv [sampleRecordA] (some []) = .ok (some [CsvLine.row sampleRecordA]) := by
  rfl

/-- C7 (amended): only for a destination that does not exist does the
Writer emit a header row of column names before the first data row of the
appended batch; an existing destination — even one with empty content —
receives no header. -/
theorem claim_c7 (data : List BookRecord) (r : BookRecord) (t : List BookRecord)
    (h : data = r :: t) :
    write_csv data none = .ok (some (CsvLine.header columns :: data.map CsvLine.row)) := by
  subst h
  simp [write_csv]

/-- C7 witness: the header-then-rows shape at a concrete fresh destination. -/
theorem claim_c7_witness :
    [sampleRecordA, sampleRecordB] = sampleRecordA :: [sampleRecordB] ∧
    write_csv [sampleRecordA, sampleRecordB] none =
      .ok (some (CsvLine.header columns :: [sampleRecordA, sampleRecordB].map CsvLine.row)) :=
  ⟨rfl, claim_c7 _ sampleRecordA [sampleRecordB] rfl⟩

/-! ### Claim C2: a page with an empty batch -/

/-- A site whose first page lists no books and whose second page lists one
parseable book. -/
def c2site : Site :=
  { rootNextBtns := [Anchor.mk [], Anchor.mk (("?pag=2").toList)]
    pages := fun p =>
      if p = 1 then ListingPage.mk []
      else ListingPage.mk [HeaderDiv.mk [Anchor.mk (("/libro/x").toList)]]
    bookAt := fun _ => goodDoc }

/-- C2 counterexample: on a run whose first page yields an empty batch the
Writer is invoked with the empty batch, `data[0]` raises `IndexError`, and
the run aborts — the page does not complete and the next page is never
processed, refuting the claim at this concrete site. -/
theorem claim_c2_cex : mainRun c2site none = .error .indexError := by decide

/-- C2 (amended): for every catalog page whose batch of extracted records
is empty, the Writer is nevertheless invoked with the empty batch; it fails
with `IndexError` while inferring column headers from the first record, and
the run aborts instead of proceeding to the next page. -/
theorem claim_c2 :
    (∀ fs : FileState, write_csv [] fs = .error .indexError) ∧
    ∀ (site : Site) (fs : FileState) (p : Nat) (ps : List Nat),
      pagesOf site = .ok (p :: ps) → (site.pages p).headers = [] →
      mainRun site fs = .error .indexError := by
  refine ⟨fun fs => rfl, ?_⟩
  intro site fs p ps hpg hhd
  simp [mainRun, hpg, runPages, parseBooks, hhd, write_csv]

/-- C2 witness: the amended behaviour at the concrete site. -/
theorem claim_c2_witness :
    pagesOf c2site = .ok (1 :: [2]) ∧ (c2site.pages 1).headers = [] ∧
    write_csv [] none = .error .indexError ∧ mainRun c2site none = .error .indexError :=
  ⟨by decide, rfl, claim_c2.1 none, claim_c2.2 c2site none 1 [2] (by decide) rfl⟩

/-! ### Claim C1: missing details container or title heading -/

/-- A book-detail document whose details container node is absent, or whose
container lacks the title heading node. -/
def badTitleDoc (doc : BookDoc) : Prop :=
  doc.productDetailsInfo = none ∨
    ∃ info, doc.productDetailsInfo = some info ∧ info.productTitle = none

/-- A book-detail document missing its details container. -/
def c1doc : BookDoc :=
  { productDetailsInfo := none, consigliatoDa := none, reviewArticle := none }

/-- A site whose pages each list one unparseable book (missing container)
followed by one parseable book. -/
def c1site : Site :=
  { rootNextBtns := [Anchor.mk [], Anchor.mk (("?pag=2").toList)]
    pages := fun _ => ListingPage.mk
      [HeaderDiv.mk [Anchor.mk (("/libro/bad").toList)],
       HeaderDiv.mk [Anchor.mk (("/libro/good").toList)]]
    bookAt := fun u => if u = urljoin DOMAIN (("/libro/good").toList) then goodDoc else c1doc }

/-- C1 counterexample: at a site whose first listed book has no details
container, the `AttributeError` raised inside `parse_book_data` is caught
nowhere — the record is not skipped and the remaining book on the page and
the subsequent page are never processed, refuting the claim that the run
continues. -/
theorem claim_c1_cex : mainRun c1site none = .error .attributeError := by decide

/-- C1 (amended): for every book-detail document whose details container
node or title heading node is absent, extraction of that record fails with
an `AttributeError`; the caller does not handle it, so the error propagates
out of the page loop and the run aborts — no remaining book on the page and
no subsequent page is processed. -/
theorem claim_c1 :
    (∀ doc : BookDoc, badTitleDoc doc → parse_book_data doc = .error .attributeError) ∧
    ∀ (site : Site) (fs : FileState) (p : Nat) (ps : List Nat) (hd : HeaderDiv)
      (hs : List HeaderDiv) (a : Anchor),
      pagesOf site = .ok (p :: ps) → (site.pages p).headers = hd :: hs →
      selectLibro hd = some a → badTitleDoc (site.bookAt (urljoin DOMAIN a.href)) →
      mainRun site fs = .error .attributeError := by
  have hparse : ∀ doc : BookDoc, badTitleDoc doc →
      parse_book_data doc = .error .attributeError := by
    intro doc hbad
    rcases hbad with he | ⟨info, hinfo, ht⟩
    · simp [parse_book_data, he]
    · simp [parse_book_data, hinfo, ht]
  refine ⟨hparse, ?_⟩
  intro site fs p ps hd hs a hpg hhd hsel hbad
  simp [mainRun, hpg, runPages, parseBooks, hhd, hsel, hparse _ hbad]

/-- C1 witness: the amended behaviour at the concrete site — the parse
fails and the whole run aborts with the propagated `AttributeError`. -/
theorem claim_c1_witness :
    parse_book_data c1doc = .error .attributeError ∧
    mainRun c1site none = .error .attributeError :=
  ⟨claim_c1.1 c1doc (Or.inl rfl),
   claim_c1.2 c1site none 1 [2] (HeaderDiv.mk [Anchor.mk (("/libro/bad").toList)])
     [HeaderDiv.mk [Anchor.mk (("/libro/good").toList)]]
     (Anchor.mk (("/libro/bad").toList))
     (by decide) rfl (by decide) (Or.inl (by decide))⟩

/-! ### Claim C8: a header with no matching book anchor -/

/-- A site whose first page holds one header without a `/libro/` anchor,
followed by a header with a parseable book. -/
def c8site : Site :=
  { rootNextBtns := [Anchor.mk [], Anchor.mk (("?pag=1").toList)]
    pages := fun _ => ListingPage.mk
      [HeaderDiv.mk [Anchor.mk (("/autore/x").toList)],
       HeaderDiv.mk [Anchor.mk (("/libro/good").toList)]]
    bookAt := fun _ => goodDoc }

/-- C8 counterexample: at a site whose first page starts with a book-entry
header containing no `/libro/` anchor, `select_one` returns `None` and
`None['href']` raises `TypeError`; the header is not skipped, the remaining
header on the page is never processed and the run aborts, refuting the
claim. -/
theorem claim_c8_cex :
    selectLibro (HeaderDiv.mk [Anchor.mk (("/autore/x").toList)]) = none ∧
    mainRun c8site none = .error .typeError := by decide

/-- C8 (amended): a book-entry header containing no anchor whose target
matches the book-detail path pattern makes the page loop raise an uncaught
`TypeError`: processing of the remaining headers on that page stops and the
run aborts. -/
theorem claim_c8 :
    (∀ (site : Site) (hd : HeaderDiv) (hs : List HeaderDiv),
      selectLibro hd = none → parseBooks site (hd :: hs) = .error .typeError) ∧
    ∀ (site : Site) (fs : FileState) (p : Nat) (ps : List Nat) (hd : HeaderDiv)
      (hs : List HeaderDiv),
      pagesOf site = .ok (p :: ps) → (site.pages p).headers = hd :: hs →
      selectLibro hd = none → mainRun site fs = .error .typeError := by
  have hpb : ∀ (site : Site) (hd : HeaderDiv) (hs : List HeaderDiv),
      selectLibro hd = none → parseBooks site (hd :: hs) = .error .typeError := by
    intro site hd hs hsel
    simp [parseBooks, hsel]
  refine ⟨hpb, ?_⟩
  intro site fs p ps hd hs hpg hhd hsel
  simp [mainRun, hpg, runPages, hhd, hpb site hd hs hsel]

/-- C8 witness: the amended behaviour at the concrete site. -/
theorem claim_c8_witness :
    parseBooks c8site (c8site.pages 1).headers = .error .typeError ∧
    mainRun c8site none = .error .typeError :=
  ⟨claim_c8.1 c8site (HeaderDiv.mk [Anchor.mk (("/autore/x").toList)])
     [HeaderDiv.mk [Anchor.mk (("/libro/good").toList)]] (by decide),
   claim_c8.2 c8site none 1 [] (HeaderDiv.mk [Anchor.mk (("/autore/x").toList)])
     [HeaderDiv.mk [Anchor.mk (("/libro/good").toList)]] (by decide) rfl (by decide)⟩

/-! ### Claim C3: pagination bound resolution -/

/-- A site whose second next-control target merely ends in `?pag=7`. -/
def c3site : Site :=
  { rootNextBtns := [Anchor.mk [], Anchor.mk (("/cat?pag=7").toList)]
    pages := fun _ => ListingPage.mk []
    bookAt := fun _ => goodDoc }

/-- A site whose second next-control target is exactly `?pag=7`. -/
def c3wsite : Site :=
  { rootNextBtns := [Anchor.mk [], Anchor.mk (("?pag=7").toList)]
    pages := fun _ => ListingPage.mk []
    bookAt := fun _ => goodDoc }

/-- C3 counterexample: a root document whose second next-control target
ends in `?pag=7` but is longer than it — the driver slices off the first
five characters, `int('g=7')` raises `ValueError`, and the bound is never
resolved, refuting the claim that every such document drives pages 1–7. -/
theorem claim_c3_cex :
    ((("?pag=7").toList).isSuffixOf
      ((c3site.rootNextBtns.get? 1).getD (Anchor.mk [])).href) = true ∧
    pagesOf c3site = .error .valueError := by decide

/-- C3 (amended): for every root catalog document whose second next-style
pagination control has the link target exactly `?pag=7`, the driver
resolves the bound to 7 and iterates exactly the page numbers 1 through 7
inclusive, in strictly increasing order, no more and no fewer. -/
theorem claim_c3 (site : Site) (a : Anchor)
    (h1 : site.rootNextBtns.get? 1 = some a) (h2 : a.href = ("?pag=7").toList) :
    pagesOf site = .ok [1, 2, 3, 4, 5, 6, 7] := by
  have hp : pyInt ['7'] = some 7 := by decide
  have hr : pyRange1 7 = [1, 2, 3, 4, 5, 6, 7] := by decide
  simp only [List.get?_eq_getElem?] at h1
  simp [pagesOf, resolveLastPage, h1, h2, hp, hr]

/-- C3 witness: the bound resolves to seven pages at a concrete root whose
second next control targets `?pag=7`. -/
theorem claim_c3_witness :
    c3wsite.rootNextBtns.get? 1 = some (Anchor.mk (("?pag=7").toList)) ∧
    pagesOf c3wsite = .ok [1, 2, 3, 4, 5, 6, 7] :=
  ⟨rfl, claim_c3 c3wsite (Anchor.mk (("?pag=7").toList)) rfl rfl⟩

/-! ### Inversion of a successful extraction -/

/-- A successful `parse_book_data` run determines the shape of the document
and expresses every field of the record through the extraction helpers. -/
lemma parse_ok_inv (doc : BookDoc) (r : BookRecord) (h : parse_book_data doc = .ok r) :
    ∃ info titleStr priceTag addInfo,
      doc.productDetailsInfo = some info ∧ info.productTitle = some titleStr ∧
      info.priceNew = some priceTag ∧ info.listUnstyled = some addInfo ∧
      r = { title := titleStr
            price := priceField priceTag
            author := searchLabel labAutore addInfo
            publisher := searchLabel labEditore addInfo
            isbn := searchLabel labIsbn addInfo
            category := searchLabel labCategoria addInfo
            translator := searchLabel labTraduttore addInfo
            pages := searchLabel labNumeroPagine addInfo
            date := searchLabel labDataUscita addInfo
            series := searchLabel labCollana addInfo
            recommendations := (recommendationFields doc).1
            bookstores := (recommendationFields doc).2
            synopsis := doc.reviewArticle } := by
  rcases hd : doc.productDetailsInfo with _ | info
  · simp [parse_book_data, hd] at h
  rcases ht : info.productTitle with _ | titleStr
  · simp [parse_book_data, hd, ht] at h
  rcases hpn : info.priceNew with _ | priceTag
  · simp [parse_book_data, hd, ht, hpn] at h
  rcases hlu : info.listUnstyled with _ | addInfo
  · simp [parse_book_data, hd, ht, hpn, hlu] at h
  refine ⟨info, titleStr, priceTag, addInfo, rfl, ht, hpn, hlu, ?_⟩
  simp [parse_book_data, hd, ht, hpn, hlu] at h
  exact h.symm

/-- Behaviour of the endorsement-extraction pass, for every document:
co-nullability, positivity of a present count, the count/join shape of a
present pair, and the collapse of an empty filter result to `(none, none)`. -/
lemma recFields_spec (doc : BookDoc) :
    ((recommendationFields doc).1 = none ↔ (recommendationFields doc).2 = none) ∧
    (∀ n, (recommendationFields doc).1 = some n → 0 < n) ∧
    (∀ n, (recommendationFields doc).1 = some n →
      ∃ anchors, doc.consigliatoDa = some anchors ∧
        n = (anchors.filter (fun a => containsSub libreriaPat a.href)).length ∧
        (recommendationFields doc).2 = some (joinComma
          ((anchors.filter (fun a => containsSub libreriaPat a.href)).map
            (fun b => b.href.drop libreriaPat.length)))) ∧
    (∀ anchors, doc.consigliatoDa = some anchors →
      anchors.filter (fun a => containsSub libreriaPat a.href) = [] →
      recommendationFields doc = (none, none)) := by
  rcases hc : doc.consigliatoDa with _ | anchors
  · simp [recommendationFields, bookstoresSel, hc]
  rcases hf : anchors.filter (fun a => containsSub libreriaPat a.href) with _ | ⟨a, rest⟩
  · simp [recommendationFields, bookstoresSel, hc, hf]
  have hrf : recommendationFields doc =
      (some (a :: rest).length,
       some (joinComma ((a :: rest).map (fun b => b.href.drop libreriaPat.length)))) := by
    simp [recommendationFields, bookstoresSel, hc, hf]
  refine ⟨by rw [hrf]; simp, ?_, ?_, ?_⟩
  · intro n hn
    rw [hrf] at hn
    simp at hn
    omega
  · intro n hn
    rw [hrf] at hn
    simp at hn
    refine ⟨anchors, rfl, ?_, ?_⟩
    · rw [hf]
      simp
      omega
    · rw [hrf, hf]
  · intro anchors2 hc2 hf2
    cases hc2
    rw [hf] at hf2
    exact absurd hf2 (by simp)

/-! ### Claim C6: co-nullability of recommendations and bookstores -/

/-- C6: for every record successfully returned by extraction,
`recommendations` is null iff `bookstores` is null; when non-null,
`recommendations` is the count of matched retailer links and `bookstores`
the joined list of their path-suffix identifiers in document order. -/
theorem claim_c6 (doc : BookDoc) (r : BookRecord) (h : parse_book_data doc = .ok r) :
    (r.recommendations = none ↔ r.bookstores = none) ∧
    ∀ n, r.recommendations = some n →
      ∃ anchors, doc.consigliatoDa = some anchors ∧
        n = (anchors.filter (fun a => containsSub libreriaPat a.href)).length ∧
        r.bookstores = some (joinComma
          ((anchors.filter (fun a => containsSub libreriaPat a.href)).map
            (fun b => b.href.drop libreriaPat.length))) := by
  obtain ⟨info, titleStr, priceTag, addInfo, _, _, _, _, hr⟩ := parse_ok_inv doc r h
  subst hr
  exact ⟨(recFields_spec doc).1, fun n hn => (recFields_spec doc).2.2.1 n hn⟩

/-- A document whose endorsement block holds two matching retailer links
and one non-matching anchor. -/
def c6doc : BookDoc :=
  { productDetailsInfo := some
      { productTitle := some none, priceNew := some none, listUnstyled := some [] }
    consigliatoDa := some
      [Anchor.mk (("/libreria/aleph").toList), Anchor.mk (("x").toList),
       Anchor.mk (("/libreria/beta").toList)]
    reviewArticle := none }

/-- The record extracted from `c6doc`. -/
def c6rec : BookRecord :=
  { sampleRecordA with recommendations := some 2, bookstores := some (("aleph, beta").toList) }

/-- C6 witness: the invariant at a concrete successfully-extracted record
with two endorsements. -/
theorem claim_c6_witness :
    parse_book_data c6doc = .ok c6rec ∧
    ((c6rec.recommendations = none ↔ c6rec.bookstores = none) ∧
     ∀ n, c6rec.recommendations = some n →
       ∃ anchors, c6doc.consigliatoDa = some anchors ∧
         n = (anchors.filter (fun a => containsSub libreriaPat a.href)).length ∧
         c6rec.bookstores = some (joinComma
           ((anchors.filter (fun a => containsSub libreriaPat a.href)).map
             (fun b => b.href.drop libreriaPat.length)))) :=
  ⟨by decide, claim_c6 c6doc c6rec (by decide)⟩

/-! ### Claim C10: a present recommendations count is strictly positive -/

/-- C10: for every record successfully returned by extraction, a non-null
`recommendations` is strictly positive, and an endorsement block with zero
matching retailer links yields null for both fields, identically to an
absent block. -/
theorem claim_c10 (doc : BookDoc) (r : BookRecord) (h : parse_book_data doc = .ok r) :
    (∀ n, r.recommendations = some n → 0 < n) ∧
    ∀ anchors, doc.consigliatoDa = some anchors →
      anchors.filter (fun a => containsSub libreriaPat a.href) = [] →
      r.recommendations = none ∧ r.bookstores = none := by
  obtain ⟨info, titleStr, priceTag, addInfo, _, _, _, _, hr⟩ := parse_ok_inv doc r h
  subst hr
  refine ⟨fun n hn => (recFields_spec doc).2.1 n hn, ?_⟩
  intro anchors hc hf
  have hrf := (recFields_spec doc).2.2.2 anchors hc hf
  constructor
  · show (recommendationFields doc).1 = none
    rw [hrf]
  · show (recommendationFields doc).2 = none
    rw [hrf]

/-- A document whose endorsement block is present but holds no matching
retailer link. -/
def c10doc : BookDoc :=
  { productDetailsInfo := some
      { productTitle := some none, priceNew := some none, listUnstyled := some [] }
    consigliatoDa := some [Anchor.mk (("x").toList)]
    reviewArticle := none }

/-- C10 witness: positivity and the zero-match collapse at a concrete
document whose endorsement block matches nothing. -/
theorem claim_c10_witness :
    parse_book_data c10doc = .ok sampleRecordA ∧
    ((∀ n, sampleRecordA.recommendations = some n → 0 < n) ∧
     ∀ anchors, c10doc.consigliatoDa = some anchors →
       anchors.filter (fun a => containsSub libreriaPat a.href) = [] →
       sampleRecordA.recommendations = none ∧ sampleRecordA.bookstores = none) :=
  ⟨by decide, claim_c10 c10doc sampleRecordA (by decide)⟩

/-! ### Claim C5: price extraction

`PricePattern` transcribes the spec's description of the price text —
"digits, comma, two digits, currency symbol" — independently of the
scanner implementation; the lemmas below show the scanner finds a match
exactly when such a decomposition exists. -/

/-- Spec-side description of a price text: somewhere in `s` a nonempty
digit run (the whole-unit part, of value `n`) is followed by a comma, two
digits, a space and the currency symbol. -/
def PricePattern (s : Str) (n : Nat) : Prop :=
  ∃ pre ds d1 d2 post,
    s = pre ++ ds ++ ',' :: d1 :: d2 :: ' ' :: '€' :: post ∧
    ds ≠ [] ∧ (∀ c ∈ ds, isDig c = true) ∧ isDig d1 = true ∧ isDig d2 = true ∧
    n = decVal ds

/-- `priceTail` succeeds exactly on a comma, two digits, space, euro. -/
lemma priceTail_iff (t : Str) :
    priceTail t = true ↔ ∃ d1 d2 post, t = ',' :: d1 :: d2 :: ' ' :: '€' :: post ∧
      isDig d1 = true ∧ isDig d2 = true := by
  constructor
  · intro hb
    rcases t with _ | ⟨a, _ | ⟨d1, _ | ⟨d2, _ | ⟨b, _ | ⟨e, post⟩⟩⟩⟩⟩ <;>
      simp [priceTail] at hb
    obtain ⟨⟨⟨⟨ha, h1⟩, h2⟩, hbb⟩, he⟩ := hb
    subst ha; subst hbb; subst he
    exact ⟨d1, d2, post, rfl, h1, h2⟩
  · rintro ⟨d1, d2, post, rfl, h1, h2⟩
    simp [priceTail, h1, h2]

/-- `takeWhile` collects exactly `m` when everything in `m` satisfies the
predicate and the next element does not. -/
lemma takeWhile_all_append {p : Char → Bool} (x : Char) (r : Str) (hx : p x = false) :
    ∀ (m : Str), (∀ c ∈ m, p c = true) → (m ++ x :: r).takeWhile p = m
  | [], _ => by simp [List.takeWhile_cons, hx]
  | c :: m, hm => by
      have hc : p c = true := hm c (by simp)
      simp only [List.cons_append, List.takeWhile_cons_of_pos hc]
      rw [takeWhile_all_append x r hx m (fun d hd => hm d (by simp [hd]))]

/-- Dropping the length of the `takeWhile` prefix leaves the `dropWhile`
suffix. -/
lemma drop_length_takeWhile {p : Char → Bool} :
    ∀ (t : Str), t.drop (t.takeWhile p).length = t.dropWhile p
  | [] => rfl
  | c :: t => by
      by_cases hc : p c = true
      · simp [List.takeWhile_cons, List.dropWhile_cons, hc, drop_length_takeWhile t]
      · simp [List.takeWhile_cons, List.dropWhile_cons, hc]

/-- The single-position matcher succeeds exactly on texts that start with
the price pattern; the captured group is the digit run. -/
lemma matchPriceAt_some_iff (t : Str) (n : Nat) :
    matchPriceAt t = some n ↔
      ∃ ds d1 d2 post, t = ds ++ ',' :: d1 :: d2 :: ' ' :: '€' :: post ∧ ds ≠ [] ∧
        (∀ c ∈ ds, isDig c = true) ∧ isDig d1 = true ∧ isDig d2 = true ∧
        n = decVal ds := by
  constructor
  · intro h
    by_cases h0 : t.takeWhile isDig = []
    · simp [matchPriceAt, h0] at h
    by_cases h1 : priceTail (t.drop (t.takeWhile isDig).length) = true
    · rw [drop_length_takeWhile] at h1
      obtain ⟨d1, d2, post, hdw, hd1, hd2⟩ := (priceTail_iff _).mp h1
      have hn : n = decVal (t.takeWhile isDig) := by
        simp [matchPriceAt, h0, drop_length_takeWhile, h1] at h
        exact h.symm
      refine ⟨t.takeWhile isDig, d1, d2, post, ?_, h0, ?_, hd1, hd2, hn⟩
      · conv_lhs => rw [← List.takeWhile_append_dropWhile isDig t]
        rw [hdw]
      · intro c hc
        exact List.mem_takeWhile_imp hc
    · simp [matchPriceAt, h0, h1] at h
  · rintro ⟨ds, d1, d2, post, rfl, hne, hds, h1, h2, rfl⟩
    have htw : ((ds ++ ',' :: d1 :: d2 :: ' ' :: '€' :: post).takeWhile isDig) = ds :=
      takeWhile_all_append ',' _ (by decide) ds hds
    have hpt : priceTail (',' :: d1 :: d2 :: ' ' :: '€' :: post) = true :=
      (priceTail_iff _).mpr ⟨d1, d2, post, rfl, h1, h2⟩
    simp [matchPriceAt, htw, hne, List.drop_left, hpt]

/-- Soundness of the scanner: a returned value is the whole-unit part of
an occurrence of the price pattern in the text. -/
lemma searchPrice_pattern : ∀ (s : Str) (n : Nat), searchPrice s = some n → PricePattern s n
  | [], _ => by simp [searchPrice]
  | c :: cs, n => by
      intro h
      unfold searchPrice at h
      rcases hm : matchPriceAt (c :: cs) with _ | m <;> rw [hm] at h
      · obtain ⟨pre, ds, d1, d2, post, heq, rest⟩ := searchPrice_pattern cs n h
        exact ⟨c :: pre, ds, d1, d2, post, by simp [heq], rest⟩
      · cases h
        obtain ⟨ds, d1, d2, post, heq, rest⟩ := (matchPriceAt_some_iff _ _).mp hm
        exact ⟨[], ds, d1, d2, post, by rw [List.nil_append, heq], rest⟩

/-- If some position matches, the scan finds a match. -/
lemma searchPrice_isSome_of_matchAt :
    ∀ (pre rest : Str) (k : Nat),
      matchPriceAt rest = some k → (searchPrice (pre ++ rest)).isSome = true
  | [], rest, k => by
      intro h
      rcases rest with _ | ⟨c, cs⟩
      · simp [matchPriceAt] at h
      · simp [searchPrice, h]
  | a :: pre, rest, k => by
      intro h
      rw [List.cons_append]
      rcases hm : matchPriceAt (a :: (pre ++ rest)) with _ | m
      · simp only [searchPrice, hm]
        exact searchPrice_isSome_of_matchAt pre rest k h
      · simp [searchPrice, hm]

/-- Completeness of the scanner: a text containing the price pattern
yields a match. -/
lemma pattern_searchPrice_isSome (s : Str) (n : Nat) (h : PricePattern s n) :
    (searchPrice s).isSome = true := by
  obtain ⟨pre, ds, d1, d2, post, rfl, hne, hds, h1, h2, rfl⟩ := h
  rw [List.append_assoc]
  exact searchPrice_isSome_of_matchAt pre _ (decVal ds)
    ((matchPriceAt_some_iff _ _).mpr ⟨ds, d1, d2, post, rfl, hne, hds, h1, h2, rfl⟩)

/-- A book-detail document whose container carries the given title string,
price tag and details text. -/
def detailsDoc (tt pt : Option Str) (ai : Str) (bl : Option (List Anchor))
    (syn : Option Str) : BookDoc :=
  { productDetailsInfo := some
      { productTitle := some tt, priceNew := some pt, listUnstyled := some ai }
    consigliatoDa := bl
    reviewArticle := syn }

/-- C5: for every price text containing the digits-comma-two-digits-euro
pattern the stored price is the integer whole-unit part of an occurrence
of the pattern, and for every price text not containing the pattern the
record still succeeds and stores the raw text verbatim. -/
theorem claim_c5 (tt : Option Str) (s : Str) (ai : Str) (bl : Option (List Anchor))
    (syn : Option Str) (r : BookRecord)
    (h : parse_book_data (detailsDoc tt (some s) ai bl syn) = .ok r) :
    (∀ n, r.price = some (.asInt n) → PricePattern s n) ∧
    ((∀ n, ¬ PricePattern s n) → r.price = some (.raw s)) ∧
    ((∃ n, PricePattern s n) → ∃ m, r.price = some (.asInt m) ∧ PricePattern s m) := by
  simp only [parse_book_data, detailsDoc] at h
  cases h
  refine ⟨?_, ?_, ?_⟩
  · intro n hn
    rcases hsp : searchPrice s with _ | m <;>
      simp only [show (priceField (some s) = match searchPrice s with
        | some n => some (.asInt n) | none => some (.raw s)) from rfl, hsp] at hn
    · simp at hn
    · simp at hn
      rw [← hn]
      exact searchPrice_pattern s m hsp
  · intro hno
    rcases hsp : searchPrice s with _ | m
    · show priceField (some s) = some (.raw s)
      simp [priceField, hsp]
    · exact absurd (searchPrice_pattern s m hsp) (hno m)
  · rintro ⟨n, hn⟩
    have hs := pattern_searchPrice_isSome s n hn
    rcases hsp : searchPrice s with _ | m
    · rw [hsp] at hs; simp at hs
    · exact ⟨m, by show priceField (some s) = _; simp [priceField, hsp],
        searchPrice_pattern s m hsp⟩

/-- The record extracted for the price text `12,50 €`. -/
def c5rec : BookRecord := { sampleRecordA with price := some (.asInt 12) }

/-- C5 witness: the matching text `12,50 €` stores the integer 12, at a
concrete successfully-extracted record. -/
theorem claim_c5_witness :
    parse_book_data (detailsDoc none (some (("12,50 €").toList)) [] none none) = .ok c5rec ∧
    ((∀ n, c5rec.price = some (.asInt n) → PricePattern (("12,50 €").toList) n) ∧
     ((∀ n, ¬ PricePattern (("12,50 €").toList) n) →
       c5rec.price = some (.raw (("12,50 €").toList))) ∧
     ((∃ n, PricePattern (("12,50 €").toList) n) →
       ∃ m, c5rec.price = some (.asInt m) ∧ PricePattern (("12,50 €").toList) m)) :=
  ⟨by decide, claim_c5 none (("12,50 €").toList) [] none none c5rec (by decide)⟩

/-! ### Claim C9: order-independence of labelled-attribute parsing

The details block is analysed line by line: `joinLines` rebuilds the
`ul.list-unstyled` text from newline-terminated lines, `lineMatch` is the
label search restricted to one line, and the lemmas below show that the
global `re.search` scan decomposes into the per-line searches, in line
order. -/

/-- The label search applied to a single newline-terminated line. -/
def lineMatch (lab l : Str) : Option Str := searchLabel lab (l ++ ['\n'])

/-- A details text block assembled from newline-terminated lines. -/
def joinLines (L : List Str) : Str := L.foldr (fun l acc => l ++ '\n' :: acc) []

/-- The eight labels of `additional_info_mapping`, in mapping order. -/
def knownLabels : List Str :=
  [labAutore, labEditore, labIsbn, labCategoria, labTraduttore, labNumeroPagine,
   labDataUscita, labCollana]

/-- Each known label paired with the record field it populates. -/
def labelFields : List (Str × (BookRecord → Option Str)) :=
  [(labAutore, fun r => r.author), (labEditore, fun r => r.publisher),
   (labIsbn, fun r => r.isbn), (labCategoria, fun r => r.category),
   (labTraduttore, fun r => r.translator), (labNumeroPagine, fun r => r.pages),
   (labDataUscita, fun r => r.date), (labCollana, fun r => r.series)]

/-- A pattern free of some character is a prefix of `l ++ x :: r` exactly
when it is a prefix of `l`. -/
lemma isPrefixOf_append_cons {x : Char} :
    ∀ (p l r : Str), x ∉ p → p.isPrefixOf (l ++ x :: r) = p.isPrefixOf l
  | [], _, _, _ => by simp [List.isPrefixOf]
  | a :: p, [], r, hx => by
      have hax : a ≠ x := fun he => hx (by simp [he])
      simp [List.isPrefixOf, hax]
  | a :: p, b :: l, r, hx => by
      simp only [List.cons_append, List.isPrefixOf, List.append_eq]
      rw [isPrefixOf_append_cons p l r (fun hmem => hx (by simp [hmem]))]

/-- The `(.+)\n` capture is insensitive to what follows the first
newline. -/
lemma capture_append_cons (m rest : Str) (hm : ('\n') ∉ m) :
    capture (m ++ '\n' :: rest) = capture (m ++ ['\n']) := by
  have hall : ∀ c ∈ m, notNl c = true := by
    intro c hc
    by_cases he : c = '\n'
    · exact absurd (he ▸ hc) hm
    · simp [notNl, he]
  have h1 : (m ++ '\n' :: rest).takeWhile notNl = m :=
    takeWhile_all_append '\n' rest (by simp [notNl]) m hall
  have h2 : (m ++ ['\n']).takeWhile notNl = m :=
    takeWhile_all_append '\n' [] (by simp [notNl]) m hall
  simp only [capture, h1, h2, List.drop_left]

/-- Matching the label pattern at a position inside a newline-terminated
line is insensitive to the text after that newline. -/
lemma matchLabelAt_append_cons (lab l rest : Str) (hnl : ('\n') ∉ lab)
    (hl : ('\n') ∉ l) :
    matchLabelAt lab (l ++ '\n' :: rest) = matchLabelAt lab (l ++ ['\n']) := by
  have hpc : ('\n') ∉ labelColon lab := by
    intro hmem
    rcases List.mem_append.mp hmem with h | h
    · exact hnl h
    · rcases List.mem_cons.mp h with h2 | h2
      · exact absurd h2 (by decide)
      · rcases List.mem_cons.mp h2 with h3 | h3
        · exact absurd h3 (by decide)
        · simp at h3
  unfold matchLabelAt
  rw [isPrefixOf_append_cons _ _ _ hpc,
      show l ++ ['\n'] = l ++ '\n' :: ([] : Str) from rfl,
      isPrefixOf_append_cons _ _ _ hpc]
  by_cases hp : (labelColon lab).isPrefixOf l = true
  · obtain ⟨m, rfl⟩ : ∃ m, l = labelColon lab ++ m := by
      obtain ⟨m, hm⟩ := List.isPrefixOf_iff_prefix.mp hp
      exact ⟨m, hm.symm⟩
    have hm2 : ('\n') ∉ m := fun hmem => hl (List.mem_append.mpr (Or.inr hmem))
    simp only [hp, if_true, List.append_assoc, List.drop_left]
    exact capture_append_cons m rest hm2
  · simp [hp]

/-- No label match can start on the newline itself. -/
lemma matchLabelAt_nl (lab t : Str) (hne : lab ≠ []) (hnl : ('\n') ∉ lab) :
    matchLabelAt lab ('\n' :: t) = none := by
  rcases lab with _ | ⟨a, lab⟩
  · exact absurd rfl hne
  have ha : a ≠ '\n' := fun he => hnl (by simp [he])
  unfold matchLabelAt labelColon
  simp [List.isPrefixOf, ha]

/-- The scan over a newline-terminated line followed by more text first
exhausts the line, then continues behind the newline. -/
lemma searchLabel_line_append (lab : Str) (hne : lab ≠ []) (hnl : ('\n') ∉ lab) :
    ∀ (l rest : Str), ('\n') ∉ l →
      searchLabel lab (l ++ '\n' :: rest) =
        match searchLabel lab (l ++ ['\n']) with
        | some v => some v
        | none => searchLabel lab rest
  | [], rest, _ => by
      simp only [List.nil_append]
      have h1 : searchLabel lab ['\n'] = none := by
        rw [searchLabel, matchLabelAt_nl lab [] hne hnl]
        rfl
      rw [h1, searchLabel, matchLabelAt_nl lab rest hne hnl]
  | c :: l, rest, hl => by
      have hc : ('\n') ∉ l := fun hm => hl (List.mem_cons_of_mem c hm)
      have hma := matchLabelAt_append_cons lab (c :: l) rest hnl hl
      simp only [List.cons_append] at hma ⊢
      rw [searchLabel, searchLabel, hma]
      rcases hm2 : matchLabelAt lab (c :: (l ++ ['\n'])) with _ | v
      · exact searchLabel_line_append lab hne hnl l rest hc
      · rfl

/-- The global scan over a block of newline-terminated lines returns the
first per-line match, in line order. -/
lemma searchLabel_joinLines (lab : Str) (hne : lab ≠ []) (hnl : ('\n') ∉ lab) :
    ∀ (L : List Str), (∀ l ∈ L, ('\n') ∉ l) →
      searchLabel lab (joinLines L) = (L.filterMap (lineMatch lab)).head?
  | [], _ => rfl
  | l :: L, hL => by
      have h1 : ('\n') ∉ l := hL l (by simp)
      have h2 : ∀ l2 ∈ L, ('\n') ∉ l2 := fun l2 hl2 => hL l2 (by simp [hl2])
      have hj : joinLines (l :: L) = l ++ '\n' :: joinLines L := rfl
      rw [hj, searchLabel_line_append lab hne hnl l (joinLines L) h1,
          searchLabel_joinLines lab hne hnl L h2, List.filterMap_cons]
      rcases hlm : lineMatch lab l with _ | v
      · have hlm2 : searchLabel lab (l ++ ['\n']) = none := hlm
        rw [hlm2]
      · have hlm2 : searchLabel lab (l ++ ['\n']) = some v := hlm
        rw [hlm2]
        rfl

/-- The length of a `filterMap` counts the elements on which the function
succeeds. -/
lemma length_filterMap_eq_countP (f : Str → Option Str) :
    ∀ L : List Str, (L.filterMap f).length = L.countP (fun l => (f l).isSome)
  | [] => rfl
  | l :: L => by
      rw [List.filterMap_cons, List.countP_cons]
      rcases hf : f l with _ | v
      · simp [length_filterMap_eq_countP f L]
      · simp [length_filterMap_eq_countP f L]

/-- Permuting the input of a `filterMap` that succeeds at most once leaves
its first result unchanged. -/
lemma head?_filterMap_perm (f : Str → Option Str) (L L2 : List Str)
    (hperm : L.Perm L2) (hle : (L.filterMap f).length ≤ 1) :
    (L.filterMap f).head? = (L2.filterMap f).head? := by
  have hp2 : (L.filterMap f).Perm (L2.filterMap f) := hperm.filterMap f
  rcases hm : L.filterMap f with _ | ⟨a, rest⟩
  · rw [hm] at hp2
    rw [List.perm_nil.mp hp2.symm]
  · rw [hm] at hp2 hle
    have hr : rest = [] := by
      rcases rest with _ | ⟨b, r2⟩
      · rfl
      · simp at hle
    subst hr
    rw [List.perm_singleton.mp hp2.symm]

/-- Evaluation of `parse_book_data` on a well-formed document. -/
lemma parse_detailsDoc (tt pt : Option Str) (ai : Str) (bl : Option (List Anchor))
    (syn : Option Str) :
    parse_book_data (detailsDoc tt pt ai bl syn) = .ok
      { title := tt
        price := priceField pt
        author := searchLabel labAutore ai
        publisher := searchLabel labEditore ai
        isbn := searchLabel labIsbn ai
        category := searchLabel labCategoria ai
        translator := searchLabel labTraduttore ai
        pages := searchLabel labNumeroPagine ai
        date := searchLabel labDataUscita ai
        series := searchLabel labCollana ai
        recommendations := (recommendationFields (detailsDoc tt pt ai bl syn)).1
        bookstores := (recommendationFields (detailsDoc tt pt ai bl syn)).2
        synopsis := syn } := rfl

/-- The endorsement pass reads only the endorsement block, not the details
text. -/
lemma recFields_detailsDoc (tt tt2 pt pt2 : Option Str) (ai ai2 : Str)
    (bl : Option (List Anchor)) (syn syn2 : Option Str) :
    recommendationFields (detailsDoc tt pt ai bl syn) =
      recommendationFields (detailsDoc tt2 pt2 ai2 bl syn2) := rfl

/-- C9 (amended): labelled-attribute parsing is order-independent for every
details block made of newline-terminated lines in which each known label's
pattern matches in at most one line — permuting the lines yields the same
extracted record; and a label matching in no line yields null for its
attribute, independent of all others.  (Without the two provisos the claim
fails: a line lacking its newline terminator never matches, and a label
occurring inside another line's value is picked up by the leftmost-match
scan; see the counterexample.) -/
theorem claim_c9 (tt pt : Option Str) (bl : Option (List Anchor)) (syn : Option Str)
    (L L2 : List Str) (hperm : L.Perm L2)
    (hL : ∀ l ∈ L, ('\n') ∉ l)
    (hcount : ∀ lab ∈ knownLabels, L.countP (fun l => (lineMatch lab l).isSome) ≤ 1) :
    parse_book_data (detailsDoc tt pt (joinLines L) bl syn) =
      parse_book_data (detailsDoc tt pt (joinLines L2) bl syn) ∧
    ∀ r, parse_book_data (detailsDoc tt pt (joinLines L) bl syn) = .ok r →
      ∀ lab f, (lab, f) ∈ labelFields → (∀ l ∈ L, lineMatch lab l = none) →
        f r = none := by
  have hlabs : ∀ lab ∈ knownLabels, lab ≠ [] ∧ ('\n') ∉ lab := by decide
  have hL2 : ∀ l ∈ L2, ('\n') ∉ l := fun l hl => hL l (hperm.mem_iff.mpr hl)
  have key : ∀ lab ∈ knownLabels,
      searchLabel lab (joinLines L) = searchLabel lab (joinLines L2) := by
    intro lab hlab
    obtain ⟨hne, hnl⟩ := hlabs lab hlab
    rw [searchLabel_joinLines lab hne hnl L hL,
        searchLabel_joinLines lab hne hnl L2 hL2]
    apply head?_filterMap_perm _ _ _ hperm
    rw [length_filterMap_eq_countP]
    exact hcount lab hlab
  have hgen : ∀ lab2, lab2 ≠ [] → ('\n') ∉ lab2 →
      (∀ l ∈ L, lineMatch lab2 l = none) →
      searchLabel lab2 (joinLines L) = none := by
    intro lab2 hne hnl hnone2
    rw [searchLabel_joinLines lab2 hne hnl L hL,
        List.filterMap_eq_nil_iff.mpr hnone2]
    rfl
  constructor
  · rw [parse_detailsDoc, parse_detailsDoc,
        recFields_detailsDoc tt tt pt pt (joinLines L2) (joinLines L) bl syn syn,
        key labAutore (by decide), key labEditore (by decide),
        key labIsbn (by decide), key labCategoria (by decide),
        key labTraduttore (by decide), key labNumeroPagine (by decide),
        key labDataUscita (by decide), key labCollana (by decide)]
  · intro r hr
    rw [parse_detailsDoc] at hr
    cases hr
    intro lab f hmem hnone
    simp only [labelFields, List.mem_cons, List.not_mem_nil, or_false,
      Prod.mk.injEq] at hmem
    obtain ⟨rfl, rfl⟩ | hmem := hmem
    · exact hgen _ (by decide) (by decide) hnone
    obtain ⟨rfl, rfl⟩ | hmem := hmem
    · exact hgen _ (by decide) (by decide) hnone
    obtain ⟨rfl, rfl⟩ | hmem := hmem
    · exact hgen _ (by decide) (by decide) hnone
    obtain ⟨rfl, rfl⟩ | hmem := hmem
    · exact hgen _ (by decide) (by decide) hnone
    obtain ⟨rfl, rfl⟩ | hmem := hmem
    · exact hgen _ (by decide) (by decide) hnone
    obtain ⟨rfl, rfl⟩ | hmem := hmem
    · exact hgen _ (by decide) (by decide) hnone
    obtain ⟨rfl, rfl⟩ | hmem := hmem
    · exact hgen _ (by decide) (by decide) hnone
    obtain ⟨rfl, rfl⟩ := hmem
    exact hgen _ (by decide) (by decide) hnone

/-- Two newline-free lines carrying the author and publisher labels. -/
def c9Lines1 : List Str := [("Autore: Y").toList, ("Editore: X").toList]

/-- The same two lines in the other order. -/
def c9Lines2 : List Str := [("Editore: X").toList, ("Autore: Y").toList]

/-- C9 witness: order-independence at a concrete well-behaved block. -/
theorem claim_c9_witness :
    List.Perm c9Lines1 c9Lines2 ∧
    (∀ l ∈ c9Lines1, ('\n') ∉ l) ∧
    (∀ lab ∈ knownLabels, c9Lines1.countP (fun l => (lineMatch lab l).isSome) ≤ 1) ∧
    (parse_book_data (detailsDoc none none (joinLines c9Lines1) none none) =
       parse_book_data (detailsDoc none none (joinLines c9Lines2) none none) ∧
     ∀ r, parse_book_data (detailsDoc none none (joinLines c9Lines1) none none) = .ok r →
       ∀ lab f, (lab, f) ∈ labelFields → (∀ l ∈ c9Lines1, lineMatch lab l = none) →
         f r = none) :=
  ⟨by decide, by decide, by decide,
   claim_c9 none none none none c9Lines1 c9Lines2 (by decide) (by decide) (by decide)⟩

/-- A line whose value itself contains a label pattern, and a genuine line
for that label. -/
def c9CexLines1 : List Str := [("Autore: Editore: Q").toList, ("Editore: Y").toList]

/-- The same two lines permuted. -/
def c9CexLines2 : List Str := [("Editore: Y").toList, ("Autore: Editore: Q").toList]

/-- C9 counterexample: permuting the `Label: value` lines of a details
block changes the extracted publisher — the leftmost-match scan picks the
`Editore:` pattern embedded in the author line's value when that line comes
first — refuting order-independence as claimed. -/
theorem claim_c9_cex :
    List.Perm c9CexLines1 c9CexLines2 ∧
    Except.map (fun r => r.publisher)
      (parse_book_data (detailsDoc none none (joinLines c9CexLines1) none none)) =
      .ok (some (("Q").toList)) ∧
    Except.map (fun r => r.publisher)
      (parse_book_data (detailsDoc none none (joinLines c9CexLines2) none none)) =
      .ok (some (("Y").toList)) := by decide

end Bookdealer
